import Mathlib

/-!
Shallow embedding of the RandomX_Hasher component of p2pool
(file src/src/pow_hash.cpp) and proofs about its seed-rotation,
previous-seed recording, dataset partitioning and hash-calculation logic.

Modelling conventions:
* Seeds and hashes are opaque equality-comparable values, modelled as Nat.
* The two epoch slots are indexed by Bool (false for slot 0, true for
  slot 1); the C statement m_index ^= 1 becomes Bool negation.
* The opaque engine (randomx_*) is abstracted: a cache holds the seed it
  was last initialized from (none = never initialized), the dataset holds
  the seed its contents were last rebuilt from, and a VM handle is
  modelled by whether it exists (its binding is the cache of its slot,
  resp. the dataset).  randomx_calculate_hash is an arbitrary function H
  of the seed backing the bound table and of the message.
* Concurrency is resolved into explicit environment parameters: the value
  a second load of the stop flag observes (a concurrent stop between the
  two loads in set_seed), whether the non-blocking dataset try-lock in
  calculate is obtained, and whether each engine allocation attempt
  (large-pages strategy, default strategy) succeeds.
* panic() (process abort) is modelled by returning none.
-/

namespace PowHash

/-- Seeds are 32-byte hash values, opaque and equality-comparable (struct hash in common.h, not under src); modelled as Nat. -/
abbrev Seed := Nat

/-- A computed RandomX hash value; modelled as Nat. -/
abbrev HashVal := Nat

/-- The input message bytes given to calculate(); modelled as a list of bytes. -/
abbrev Msg := List Nat

/-- State of RandomX_Hasher (members declared in pow_hash.h, which is not
under src; the member list and initial values are taken from the
constructor initializer list at pow_hash.cpp lines 31-37 and from every
use in pow_hash.cpp).  m_cache i is the seed cache i was last initialized
from (none = allocated but never initialized); m_dataset records whether
the dataset allocation succeeded; m_datasetContent is the seed the
dataset contents were last rebuilt from (none = never rebuilt); m_vm i
records whether the light VM of slot i has been created; m_fullVM whether
the full-dataset VM (index FULL_DATASET_VM) has been created. -/
structure RandomX_Hasher where
  m_cache : Bool → Option Seed
  m_dataset : Bool
  m_datasetContent : Option Seed
  m_seed : Bool → Seed
  m_index : Bool
  m_setSeedCounter : Nat
  m_stopped : Bool
  m_vm : Bool → Bool
  m_fullVM : Bool
deriving DecidableEq

/-- Outcome of one engine allocation site: first the large-pages strategy
is attempted, then on failure the default strategy (the pattern at
pow_hash.cpp lines 42-48, 58-65, 220-227, 274-280, 313-320).  The two
booleans say whether each attempt would succeed. -/
def tryAlloc (lp df : Bool) : Bool := if lp then true else df

/-- Allocation outcomes for the construction of the hasher:
dataset attempts (lines 42-45) and the two cache attempts (lines 58-61,
one pair per slot of the loop at line 57). -/
structure AllocEnv where
  dataset_lp : Bool
  dataset_def : Bool
  cache_lp : Bool → Bool
  cache_def : Bool → Bool
deriving DecidableEq

/-- RandomX_Hasher::RandomX_Hasher (pow_hash.cpp lines 31-81).  Returns
none when the process aborts: panic() at line 64 when a cache cannot be
allocated by either strategy (the loop tries slot 0 first).  Dataset
allocation failure is non-fatal (line 47 logs only).  Initial values of
the members follow the initializer list at lines 32-37 (m_seed{} zeroes
both slot seeds, m_index(0), m_setSeedCounter(0)); VMs start null
(line 75).  The initial value of m_stopped is modelled from the spec
(section 3, Stopped Flag: a one-way latch, initially clear), its
declaration being in pow_hash.h which is not under src. -/
def construct (lightMode : Bool) (env : AllocEnv) : Option RandomX_Hasher :=
  let ds := !lightMode && tryAlloc env.dataset_lp env.dataset_def
  if tryAlloc (env.cache_lp false) (env.cache_def false) = false then none
  else if tryAlloc (env.cache_lp true) (env.cache_def true) = false then none
  else some
    { m_cache := fun _ => none
      m_dataset := ds
      m_datasetContent := none
      m_seed := fun _ => 0
      m_index := false
      m_setSeedCounter := 0
      m_stopped := false
      m_vm := fun _ => false
      m_fullVM := false }

/-- The one-way stop latch: m_stopped.exchange(1), pow_hash.cpp line 85
(reached from the teardown path; the latch is never cleared). -/
def stop (s : RandomX_Hasher) : RandomX_Hasher := { s with m_stopped := true }

/-- Environment of one set_seed call: lateStop is the value a second load
of m_stopped (line 202) observes after the first load at line 185 saw
false (true means a concurrent stop happened in between); the four
booleans are the outcomes of the light-VM creation attempts
(lines 220, 223) and the full-dataset-VM creation attempts
(lines 274, 277). -/
structure SetSeedEnv where
  lateStop : Bool
  slotVM_lp : Bool
  slotVM_def : Bool
  fullVM_lp : Bool
  fullVM_def : Bool
deriving DecidableEq

/-- The dataset part of RandomX_Hasher::set_seed (pow_hash.cpp
lines 234-285): when the dataset exists, its contents are rebuilt from
the new current cache (randomx_init_dataset over the partition modelled
by initRanges below), and the full-dataset VM is created at lines
272-281 if it does not exist yet; creation failure there is non-fatal
(line 279 logs only) and so is retried by the next rotation. -/
def datasetStep (s : RandomX_Hasher) (seed : Seed) (env : SetSeedEnv) : RandomX_Hasher :=
  if s.m_dataset then
    { s with
      m_datasetContent := some seed
      m_fullVM := s.m_fullVM || (!s.m_fullVM && tryAlloc env.fullVM_lp env.fullVM_def) }
  else s

/-- RandomX_Hasher::set_seed (pow_hash.cpp lines 183-286).  Returns none
when the process aborts: panic() at line 226 when the light VM of the
newly current slot does not exist and cannot be created by either
strategy.  Otherwise: early return when stopped (line 185), increment of
m_setSeedCounter (line 192), no-op return when the seed equals the
current slot seed (lines 194-197), return after the second stop check
(lines 202-204), then epoch flip (line 206), seed store (line 207),
cache re-initialization (line 210), VM rebind or creation
(lines 212-229), and the dataset step. -/
def set_seed (s : RandomX_Hasher) (seed : Seed) (env : SetSeedEnv) : Option RandomX_Hasher :=
  if s.m_stopped then some s
  else
    let s1 : RandomX_Hasher := { s with m_setSeedCounter := s.m_setSeedCounter + 1 }
    if s1.m_seed s1.m_index = seed then some s1
    else if env.lateStop then some s1
    else
      let i := !s1.m_index
      let s2 : RandomX_Hasher :=
        { s1 with
          m_index := i
          m_seed := Function.update s1.m_seed i seed
          m_cache := Function.update s1.m_cache i (some seed) }
      if s2.m_vm i = false ∧ tryAlloc env.slotVM_lp env.slotVM_def = false then none
      else
        some (datasetStep { s2 with m_vm := Function.update s2.m_vm i true } seed env)

/-- Outcome of one set_old_seed call: completes normally, spins forever
in the wait loop at pow_hash.cpp lines 291-293 (in a run where no
concurrent set_seed ever increments the counter), or aborts the process
via panic() at line 319. -/
inductive OldSeedResult where
  | completes (s : RandomX_Hasher)
  | spins
  | aborts
deriving DecidableEq

/-- Environment of one set_old_seed call: outcomes of the light-VM
creation attempts at pow_hash.cpp lines 313 and 316. -/
structure OldSeedEnv where
  vm_lp : Bool
  vm_def : Bool
deriving DecidableEq

/-- The slot mutation performed by RandomX_Hasher::set_old_seed
(pow_hash.cpp lines 298-323): the non-current slot (old_index =
m_index ^ 1, line 300) receives the seed (line 301), its cache is
re-initialized (line 303) and its VM is rebound or created
(lines 305-322). -/
def oldSeedUpdate (s : RandomX_Hasher) (seed : Seed) : RandomX_Hasher :=
  { s with
    m_seed := Function.update s.m_seed (!s.m_index) seed
    m_cache := Function.update s.m_cache (!s.m_index) (some seed)
    m_vm := Function.update s.m_vm (!s.m_index) true }

/-- RandomX_Hasher::set_old_seed (pow_hash.cpp lines 288-325).  The wait
loop at lines 291-293 only re-loads m_setSeedCounter; in a sequential
run (no concurrent set_seed) a zero counter therefore never changes and
the loop spins forever.  After the wait, the non-current slot is
mutated; panic() at line 319 when that slot has no VM yet and creation
fails under both strategies. -/
def set_old_seed (s : RandomX_Hasher) (seed : Seed) (env : OldSeedEnv) : OldSeedResult :=
  if s.m_setSeedCounter = 0 then .spins
  else if s.m_vm (!s.m_index) = false ∧ tryAlloc env.vm_lp env.vm_def = false then .aborts
  else .completes (oldSeedUpdate s seed)

/-- The wait loop of set_old_seed (pow_hash.cpp lines 291-293) run for a
bounded number of iterations against an observation trace: obs n is the
value the n-th load of m_setSeedCounter returns (the counter is
modified concurrently, so it is a trace, not a single value).  The loop
condition consults nothing but the counter, so it exits within the
given number of iterations exactly when one of those loads returns a
non-zero value. -/
def waitLoopExitsWithin (obs : Nat → Nat) (iterations : Nat) : Bool :=
  (List.range iterations).any fun n => obs n != 0

/-- The cache-backed part of RandomX_Hasher::calculate (pow_hash.cpp
lines 345-369): stop check at line 348, then the current slot
(lines 352-358), then the previous slot (lines 360-367).  The state is
threaded through explicitly to record that no field is written.  H is
the opaque randomx_calculate_hash applied to the seed backing the VM
bound cache. -/
def cachePath (H : Seed → Msg → HashVal) (s : RandomX_Hasher) (msg : Msg) (seed : Seed) :
    RandomX_Hasher × Option HashVal :=
  if s.m_stopped then (s, none)
  else if s.m_vm s.m_index = true ∧ seed = s.m_seed s.m_index then
    (s, some (H ((s.m_cache s.m_index).getD 0) msg))
  else if s.m_vm (!s.m_index) = true ∧ seed = s.m_seed (!s.m_index) then
    (s, some (H ((s.m_cache (!s.m_index)).getD 0) msg))
  else (s, none)

/-- RandomX_Hasher::calculate (pow_hash.cpp lines 327-370).  tryLock is
whether the non-blocking uv_rwlock_tryrdlock at line 330 is obtained;
when it is, the stop flag is checked (line 333) and the full-dataset VM
is used if it exists and the current slot seed matches (lines 339-342);
in every other case the cache path is taken.  The returned state is the
post-call hasher state (calculate writes no field). -/
def calculate (H : Seed → Msg → HashVal) (s : RandomX_Hasher) (tryLock : Bool) (msg : Msg)
    (seed : Seed) : RandomX_Hasher × Option HashVal :=
  if tryLock then
    if s.m_stopped then (s, none)
    else if s.m_fullVM = true ∧ seed = s.m_seed s.m_index then
      (s, some (H (s.m_datasetContent.getD 0) msg))
    else cachePath H s msg seed
  else cachePath H s msg seed

/-- Two to the 32nd, the modulus of the uint32 arithmetic at pow_hash.cpp
lines 252-253. -/
def U32 : Nat := 4294967296

/-- The dataset-rebuild thread count (pow_hash.cpp lines 236-241):
numThreads = std::thread::hardware_concurrency(), halved when greater
than 1. -/
def numDatasetThreads (hw : Nat) : Nat := if 1 < hw then hw / 2 else hw

/-- The (start item, item count) argument pairs passed to
randomx_init_dataset during the dataset rebuild (pow_hash.cpp
lines 247-268): when more than one thread is used, thread i initializes
from a = numItems * i / numThreads to b = numItems * (i+1) / numThreads
(exclusive), the products computed in uint32 arithmetic
(lines 252-253), the count passed being b - a in uint32 arithmetic
(line 258); otherwise a single call covers (0, numItems) (line 267). -/
def initRanges (numItems hw : Nat) : List (Nat × Nat) :=
  let n := numDatasetThreads hw
  if 1 < n then
    (List.range n).map fun i =>
      let a := numItems * i % U32 / n
      let b := numItems * (i + 1) % U32 / n
      (a, (b + U32 - a) % U32)
  else [(0, numItems)]

/-- How many of the given (start, count) ranges contain item j. -/
def coversCount (rs : List (Nat × Nat)) (j : Nat) : Nat :=
  rs.countP fun r => decide (r.1 ≤ j ∧ j < r.1 + r.2)

/-- Consistency of the derived engine state with the recorded slot seeds
(the invariant the lock discipline maintains): a slot whose VM exists
has its cache initialized from that slot seed, and when the
full-dataset VM exists the dataset is present and its contents were
rebuilt from the current slot seed. -/
def SeedConsistent (s : RandomX_Hasher) : Prop :=
  (∀ i, s.m_vm i = true → s.m_cache i = some (s.m_seed i)) ∧
  (s.m_fullVM = true → s.m_dataset = true ∧ s.m_datasetContent = some (s.m_seed s.m_index))

instance (s : RandomX_Hasher) : Decidable (SeedConsistent s) := by
  unfold SeedConsistent; infer_instance

lemma ne_not_self (b : Bool) : b ≠ !b := by cases b <;> simp

lemma not_self_ne (b : Bool) : (!b) ≠ b := by cases b <;> simp

lemma datasetStep_m_index (s : RandomX_Hasher) (seed : Seed) (env : SetSeedEnv) :
    (datasetStep s seed env).m_index = s.m_index := by
  unfold datasetStep; split_ifs <;> rfl

lemma datasetStep_m_seed (s : RandomX_Hasher) (seed : Seed) (env : SetSeedEnv) :
    (datasetStep s seed env).m_seed = s.m_seed := by
  unfold datasetStep; split_ifs <;> rfl

lemma datasetStep_m_vm (s : RandomX_Hasher) (seed : Seed) (env : SetSeedEnv) :
    (datasetStep s seed env).m_vm = s.m_vm := by
  unfold datasetStep; split_ifs <;> rfl

lemma datasetStep_m_stopped (s : RandomX_Hasher) (seed : Seed) (env : SetSeedEnv) :
    (datasetStep s seed env).m_stopped = s.m_stopped := by
  unfold datasetStep; split_ifs <;> rfl

lemma datasetStep_m_cache (s : RandomX_Hasher) (seed : Seed) (env : SetSeedEnv) :
    (datasetStep s seed env).m_cache = s.m_cache := by
  unfold datasetStep; split_ifs <;> rfl

lemma datasetStep_m_dataset (s : RandomX_Hasher) (seed : Seed) (env : SetSeedEnv) :
    (datasetStep s seed env).m_dataset = s.m_dataset := by
  unfold datasetStep; split_ifs <;> rfl

lemma datasetStep_m_setSeedCounter (s : RandomX_Hasher) (seed : Seed) (env : SetSeedEnv) :
    (datasetStep s seed env).m_setSeedCounter = s.m_setSeedCounter := by
  unfold datasetStep; split_ifs <;> rfl

/-- set_seed when the hasher is already stopped: full no-op (line 185). -/
lemma set_seed_of_stopped (s : RandomX_Hasher) (seed : Seed) (env : SetSeedEnv)
    (hstop : s.m_stopped = true) : set_seed s seed env = some s := by
  simp [set_seed, hstop]

/-- set_seed on the seed already in the current slot: only the counter
moves (lines 192-197). -/
lemma set_seed_of_equal (s : RandomX_Hasher) (seed : Seed) (env : SetSeedEnv)
    (hstop : s.m_stopped = false) (heq : s.m_seed s.m_index = seed) :
    set_seed s seed env = some { s with m_setSeedCounter := s.m_setSeedCounter + 1 } := by
  simp [set_seed, hstop, heq]

/-- set_seed when a concurrent stop lands between the two stop-flag
loads: only the counter moves (lines 192-204). -/
lemma set_seed_of_lateStop (s : RandomX_Hasher) (seed : Seed) (env : SetSeedEnv)
    (hstop : s.m_stopped = false) (hne : s.m_seed s.m_index ≠ seed)
    (hl : env.lateStop = true) :
    set_seed s seed env = some { s with m_setSeedCounter := s.m_setSeedCounter + 1 } := by
  simp [set_seed, hstop, hne, hl]

/-- A completed distinct-seed rotation: the epoch index flips, the new
seed lands in the now-current slot with a live VM, and the other slot is
untouched. -/
lemma set_seed_rotates (s s' : RandomX_Hasher) (seed : Seed) (env : SetSeedEnv)
    (hstop : s.m_stopped = false) (hl : env.lateStop = false)
    (hne : s.m_seed s.m_index ≠ seed)
    (h : set_seed s seed env = some s') :
    s'.m_index = !s.m_index ∧
    s'.m_seed (!s.m_index) = seed ∧
    s'.m_seed s.m_index = s.m_seed s.m_index ∧
    s'.m_vm (!s.m_index) = true ∧
    s'.m_vm s.m_index = s.m_vm s.m_index ∧
    s'.m_stopped = false := by
  simp only [set_seed, hstop, hl, hne, Bool.false_eq_true, if_false, ite_false,
    Option.some.injEq] at h
  split_ifs at h with habort
  obtain rfl := Option.some.inj h
  refine ⟨?_, ?_, ?_, ?_, ?_, ?_⟩ <;>
    simp [datasetStep_m_index, datasetStep_m_seed, datasetStep_m_vm,
      datasetStep_m_stopped, Function.update_apply, not_self_ne, ne_not_self, hstop]

/-- After any completed set_seed in a running hasher, the current slot
holds exactly the requested seed and the hasher is still running. -/
lemma set_seed_current (s s' : RandomX_Hasher) (seed : Seed) (env : SetSeedEnv)
    (hstop : s.m_stopped = false) (hl : env.lateStop = false)
    (h : set_seed s seed env = some s') :
    s'.m_seed s'.m_index = seed ∧ s'.m_stopped = false := by
  by_cases heq : s.m_seed s.m_index = seed
  · rw [set_seed_of_equal s seed env hstop heq] at h
    obtain rfl := (Option.some.inj h).symm
    exact ⟨heq, hstop⟩
  · obtain ⟨hi, hcur, _, _, _, hst⟩ := set_seed_rotates s s' seed env hstop hl heq h
    exact ⟨by rw [hi]; exact hcur, hst⟩

/-- calculate never succeeds when the requested seed is in neither slot. -/
lemma calculate_none_of_no_match (H : Seed → Msg → HashVal) (s : RandomX_Hasher)
    (tl : Bool) (msg : Msg) (seed : Seed)
    (h0 : seed ≠ s.m_seed s.m_index) (h1 : seed ≠ s.m_seed (!s.m_index)) :
    (calculate H s tl msg seed).2 = none := by
  cases tl <;> simp [calculate, cachePath, h0, h1]

/-- calculate succeeds when the hasher is running, the current slot VM
exists and the current slot seed is the requested one. -/
lemma calculate_isSome_of_current (H : Seed → Msg → HashVal) (s : RandomX_Hasher)
    (tl : Bool) (msg : Msg) (seed : Seed)
    (hstop : s.m_stopped = false) (hvm : s.m_vm s.m_index = true)
    (hseed : seed = s.m_seed s.m_index) :
    ((calculate H s tl msg seed).2).isSome = true := by
  cases tl <;> simp [calculate, cachePath, hstop, hvm, hseed] <;> split_ifs <;> simp

/-- calculate succeeds when the hasher is running, the previous slot VM
exists and the previous slot seed is the requested one. -/
lemma calculate_isSome_of_previous (H : Seed → Msg → HashVal) (s : RandomX_Hasher)
    (tl : Bool) (msg : Msg) (seed : Seed)
    (hstop : s.m_stopped = false) (hvm : s.m_vm (!s.m_index) = true)
    (hseed : seed = s.m_seed (!s.m_index)) :
    ((calculate H s tl msg seed).2).isSome = true := by
  cases tl <;> simp [calculate, cachePath, hstop, hvm, hseed] <;> split_ifs <;> simp

/-- Soundness and exactness of the cache path of calculate: under cache
consistency, a returned hash was computed against the requested seed,
and (when running) the path succeeds exactly when the current or the
previous slot matches. -/
lemma cachePath_spec (H : Seed → Msg → HashVal) (s : RandomX_Hasher) (msg : Msg) (seed : Seed)
    (hcache : ∀ i, s.m_vm i = true → s.m_cache i = some (s.m_seed i)) :
    (∀ out, (cachePath H s msg seed).2 = some out → out = H seed msg) ∧
    (s.m_stopped = false →
      (((cachePath H s msg seed).2).isSome = true ↔
        (s.m_vm s.m_index = true ∧ seed = s.m_seed s.m_index) ∨
        (s.m_vm (!s.m_index) = true ∧ seed = s.m_seed (!s.m_index)))) := by
  constructor
  · intro out hout
    unfold cachePath at hout
    split_ifs at hout with h1 h2 h3
    · obtain ⟨hvm, hs⟩ := h2
      rw [hcache _ hvm] at hout
      simp only [Option.getD_some] at hout
      obtain rfl := Option.some.inj hout
      rw [hs]
    · obtain ⟨hvm, hs⟩ := h3
      rw [hcache _ hvm] at hout
      simp only [Option.getD_some] at hout
      obtain rfl := Option.some.inj hout
      rw [hs]
  · intro hstop
    unfold cachePath
    rw [if_neg (by simp [hstop])]
    split_ifs with h2 h3
    · simp [h2]
    · simp [h2, h3]
    · simp [h2, h3]

/-- The state produced by construct satisfies the seed-consistency
invariant (no VM exists yet). -/
lemma seedConsistent_construct (light : Bool) (env : AllocEnv) (s : RandomX_Hasher)
    (h : construct light env = some s) : SeedConsistent s := by
  unfold construct at h
  split_ifs at h
  obtain rfl := Option.some.inj h
  exact ⟨fun i hi => by simp at hi, fun hf => by simp at hf⟩

/-- stop preserves the seed-consistency invariant. -/
lemma seedConsistent_stop (s : RandomX_Hasher) (hc : SeedConsistent s) :
    SeedConsistent (stop s) := hc

/-- set_seed preserves the seed-consistency invariant. -/
lemma seedConsistent_set_seed (s s' : RandomX_Hasher) (seed : Seed) (env : SetSeedEnv)
    (hc : SeedConsistent s) (h : set_seed s seed env = some s') : SeedConsistent s' := by
  obtain ⟨hcache, hfull⟩ := hc
  simp only [set_seed] at h
  split_ifs at h with h1 h2 h3
  · obtain rfl := Option.some.inj h
    exact ⟨hcache, hfull⟩
  · obtain rfl := Option.some.inj h
    exact ⟨hcache, hfull⟩
  · obtain rfl := Option.some.inj h
    exact ⟨hcache, hfull⟩
  · simp only [Option.some.injEq] at h
    obtain rfl := h
    constructor
    · intro i hi
      by_cases hie : i = !s.m_index
      · subst hie
        simp [datasetStep_m_cache, datasetStep_m_seed, Function.update_apply]
      · simp only [datasetStep_m_cache, datasetStep_m_vm, datasetStep_m_seed] at hi ⊢
        simp only [Function.update_apply, if_neg hie] at hi ⊢
        exact hcache i hi
    · intro hf
      unfold datasetStep at hf ⊢
      split_ifs at hf ⊢ with hd
      · simp only [Function.update_apply, if_pos rfl]
        exact ⟨hd, rfl⟩
      · simp only at hf
        exact absurd (hfull hf).1 hd

/-- set_old_seed preserves the seed-consistency invariant. -/
lemma seedConsistent_set_old_seed (s s' : RandomX_Hasher) (seed : Seed) (env : OldSeedEnv)
    (hc : SeedConsistent s) (h : set_old_seed s seed env = .completes s') : SeedConsistent s' := by
  obtain ⟨hcache, hfull⟩ := hc
  unfold set_old_seed at h
  split_ifs at h
  simp only [OldSeedResult.completes.injEq] at h
  obtain rfl := h
  constructor
  · intro i hi
    by_cases hie : i = !s.m_index
    · subst hie
      simp [oldSeedUpdate, Function.update_apply]
    · simp only [oldSeedUpdate, Function.update_apply, if_neg hie] at hi ⊢
      exact hcache i hi
  · intro hf
    simp only [oldSeedUpdate] at hf ⊢
    refine ⟨(hfull hf).1, ?_⟩
    simp only [Function.update_apply, if_neg (ne_not_self s.m_index)]
    exact (hfull hf).2

/-- Counting lemma for a monotone sequence of cut points: among the
ranges between consecutive cut points of f, a value j lies in exactly
one, namely when f 0 ≤ j < f N. -/
lemma countP_chain (f : Nat → Nat) (j : Nat) (hf : ∀ i, f i ≤ f (i + 1)) :
    ∀ N, ((List.range N).countP fun i => decide (f i ≤ j ∧ j < f (i + 1))) =
      if f 0 ≤ j ∧ j < f N then 1 else 0 := by
  have hmono : Monotone f := monotone_nat_of_le_succ hf
  intro N
  induction N with
  | zero =>
    rw [if_neg (by rintro ⟨h1, h2⟩; omega)]
    simp
  | succ N ih =>
    rw [List.range_succ, List.countP_append, ih]
    have hN : f 0 ≤ f N := hmono (Nat.zero_le N)
    have hN1 : f N ≤ f (N + 1) := hf N
    by_cases hj1 : f N ≤ j
    · by_cases hj2 : j < f (N + 1)
      · rw [if_neg (by omega), if_pos ⟨le_trans hN hj1, hj2⟩]
        simp [hj1, hj2]
      · rw [if_neg (by omega), if_neg (by omega)]
        simp [hj2]
    · have hjN : j < f N := Nat.lt_of_not_le hj1
      have hlast : (List.countP (fun i => decide (f i ≤ j ∧ j < f (i + 1))) [N]) = 0 := by
        simp [hj1]
      rw [hlast, Nat.add_zero]
      by_cases h0 : f 0 ≤ j
      · rw [if_pos ⟨h0, hjN⟩, if_pos ⟨h0, by omega⟩]
      · rw [if_neg (by tauto), if_neg (by tauto)]

/-- A concrete engine hash function used to instantiate theorems on
concrete inputs. -/
def hashFn : Seed → Msg → HashVal := fun s _ => s

/-- A set_seed environment with no concurrent stop and all allocation
attempts succeeding. -/
def eOk : SetSeedEnv := ⟨false, true, true, true, true⟩

/-- The freshly constructed hasher in light mode (no dataset). -/
def sZero : RandomX_Hasher :=
  ⟨fun _ => none, false, none, fun _ => 0, false, 0, false, fun _ => false, false⟩

/-- sZero after set_seed 1 (the rotation succeeds, so getD never falls
back to its default). -/
def sOne : RandomX_Hasher := (set_seed sZero 1 eOk).getD sZero

/-- sOne after set_seed 2. -/
def sTwo : RandomX_Hasher := (set_seed sOne 2 eOk).getD sZero

/-- sTwo after set_seed 3. -/
def sThree : RandomX_Hasher := (set_seed sTwo 3 eOk).getD sZero

/-- The freshly constructed hasher with a dataset allocated. -/
def sDS : RandomX_Hasher :=
  ⟨fun _ => none, true, none, fun _ => 0, false, 0, false, fun _ => false, false⟩

/-- A set_seed environment in which both full-dataset-VM creation
attempts fail (everything else succeeds). -/
def eNoFull : SetSeedEnv := ⟨false, true, true, false, false⟩

/-- A set_seed environment in which the large-pages full-dataset-VM
creation attempt succeeds. -/
def eRetry : SetSeedEnv := ⟨false, true, true, true, false⟩

/-- sDS after set_seed 1 under eNoFull: dataset rebuilt, but the
full-dataset VM could not be created. -/
def sDS1 : RandomX_Hasher := (set_seed sDS 1 eNoFull).getD sZero

/-- sDS1 after set_seed 2 under eRetry: the full-dataset VM creation was
re-attempted and succeeded. -/
def sDS2 : RandomX_Hasher := (set_seed sDS1 2 eRetry).getD sZero

/-- C3: set_seed is idempotent on an equal seed: in a running hasher
whose current slot already holds the requested seed, set_seed returns
with the epoch index, both slot seeds, both caches, all VM handles and
the dataset state unchanged; the rotation counter is the only state it
has incremented (pow_hash.cpp lines 192-197). -/
theorem C3_set_seed_idempotent_on_equal_seed (s : RandomX_Hasher) (seed : Seed)
    (env : SetSeedEnv) (hstop : s.m_stopped = false) (heq : s.m_seed s.m_index = seed) :
    set_seed s seed env = some { s with m_setSeedCounter := s.m_setSeedCounter + 1 } ∧
    ∀ s', set_seed s seed env = some s' →
      s'.m_index = s.m_index ∧ s'.m_seed = s.m_seed ∧ s'.m_cache = s.m_cache ∧
      s'.m_vm = s.m_vm ∧ s'.m_fullVM = s.m_fullVM ∧ s'.m_dataset = s.m_dataset ∧
      s'.m_datasetContent = s.m_datasetContent ∧ s'.m_stopped = s.m_stopped ∧
      s'.m_setSeedCounter = s.m_setSeedCounter + 1 := by
  have h := set_seed_of_equal s seed env hstop heq
  refine ⟨h, ?_⟩
  intro s' h'
  rw [h] at h'
  obtain rfl := Option.some.inj h'
  exact ⟨rfl, rfl, rfl, rfl, rfl, rfl, rfl, rfl, rfl⟩

/-- Witness for C3 at a concrete state. -/
theorem C3_witness :
    sOne.m_stopped = false ∧ sOne.m_seed sOne.m_index = 1 ∧
    set_seed sOne 1 eOk = some { sOne with m_setSeedCounter := sOne.m_setSeedCounter + 1 } :=
  ⟨by decide, by decide,
    (C3_set_seed_idempotent_on_equal_seed sOne 1 eOk (by decide) (by decide)).1⟩

/-- C4: set_old_seed writes the seed only into the non-current slot and
re-initializes only that slot cache and VM; the epoch index, the current
slot, the rotation counter and all dataset state are unchanged; and
while the rotation counter is zero it performs no slot mutation at all
(it stays in the wait loop at pow_hash.cpp lines 291-293). -/
theorem C4_set_old_seed_frame (s : RandomX_Hasher) (seed : Seed) (env : OldSeedEnv)
    (halloc : s.m_vm (!s.m_index) = true ∨ tryAlloc env.vm_lp env.vm_def = true) :
    (s.m_setSeedCounter = 0 → set_old_seed s seed env = .spins) ∧
    (s.m_setSeedCounter ≠ 0 →
      set_old_seed s seed env = .completes (oldSeedUpdate s seed) ∧
      (oldSeedUpdate s seed).m_index = s.m_index ∧
      (oldSeedUpdate s seed).m_seed s.m_index = s.m_seed s.m_index ∧
      (oldSeedUpdate s seed).m_cache s.m_index = s.m_cache s.m_index ∧
      (oldSeedUpdate s seed).m_vm s.m_index = s.m_vm s.m_index ∧
      (oldSeedUpdate s seed).m_seed (!s.m_index) = seed ∧
      (oldSeedUpdate s seed).m_cache (!s.m_index) = some seed ∧
      (oldSeedUpdate s seed).m_vm (!s.m_index) = true ∧
      (oldSeedUpdate s seed).m_setSeedCounter = s.m_setSeedCounter ∧
      (oldSeedUpdate s seed).m_dataset = s.m_dataset ∧
      (oldSeedUpdate s seed).m_datasetContent = s.m_datasetContent ∧
      (oldSeedUpdate s seed).m_fullVM = s.m_fullVM ∧
      (oldSeedUpdate s seed).m_stopped = s.m_stopped) := by
  have habort : ¬(s.m_vm (!s.m_index) = false ∧ tryAlloc env.vm_lp env.vm_def = false) := by
    rcases halloc with h | h <;> simp [h]
  constructor
  · intro h0
    rw [set_old_seed, if_pos h0]
  · intro h0
    refine ⟨by rw [set_old_seed, if_neg h0, if_neg habort], rfl, ?_, ?_, ?_, ?_, ?_, ?_, rfl,
      rfl, rfl, rfl, rfl⟩ <;>
      simp [oldSeedUpdate, Function.update_apply, ne_not_self]

/-- Witness for C4 at a concrete state (counter non-zero, VM present). -/
theorem C4_witness :
    (sTwo.m_vm (!sTwo.m_index) = true ∨ tryAlloc true true = true) ∧
    sTwo.m_setSeedCounter ≠ 0 ∧
    set_old_seed sTwo 9 ⟨true, true⟩ = .completes (oldSeedUpdate sTwo 9) :=
  ⟨by decide, by decide,
    ((C4_set_old_seed_frame sTwo 9 ⟨true, true⟩ (by decide)).2 (by decide)).1⟩

/-- C5: the claim says the wait of set_old_seed is abandoned once the
Stopped Flag is set; the loop at pow_hash.cpp lines 291-293 consults
nothing but m_setSeedCounter, so in every execution where each load of
the counter returns zero it never exits, however many iterations run
and whatever the stop flag does.  This theorem records the divergence:
the loop exit condition evaluates to false at every depth on the
all-zero counter trace. -/
theorem C5_wait_loop_ignores_stop :
    ∀ iterations, waitLoopExitsWithin (fun _ => 0) iterations = false := by
  intro n
  simp [waitLoopExitsWithin]

/-- C8: once the stop latch is set, calculate fails on both the dataset
fast path and the cache fallback path without computing a hash
(pow_hash.cpp lines 333, 348), and set_seed returns with no state
change at all (line 185). -/
theorem C8_stopped_refuses_everything (s : RandomX_Hasher) (hstop : s.m_stopped = true) :
    (∀ H tl msg seed, (calculate H s tl msg seed).2 = none) ∧
    (∀ seed env, set_seed s seed env = some s) := by
  constructor
  · intro H tl msg seed
    cases tl <;> simp [calculate, cachePath, hstop]
  · intro seed env
    exact set_seed_of_stopped s seed env hstop

/-- Witness for C8 at a concrete stopped state (both try-lock outcomes). -/
theorem C8_witness :
    (stop sZero).m_stopped = true ∧
    (calculate hashFn (stop sZero) true [3] 0).2 = none ∧
    (calculate hashFn (stop sZero) false [3] 0).2 = none ∧
    set_seed (stop sZero) 5 eOk = some (stop sZero) :=
  ⟨by decide,
    (C8_stopped_refuses_everything (stop sZero) (by decide)).1 hashFn true [3] 0,
    (C8_stopped_refuses_everything (stop sZero) (by decide)).1 hashFn false [3] 0,
    (C8_stopped_refuses_everything (stop sZero) (by decide)).2 5 eOk⟩

/-- C9: calculate is a pure reader of the hasher state: whatever the
input, the lock outcome and the state, the post-call state equals the
pre-call state; its only outputs are the success flag and the hash
(pow_hash.cpp lines 327-370 perform no member writes). -/
theorem C9_calculate_pure_reader (H : Seed → Msg → HashVal) (s : RandomX_Hasher)
    (tl : Bool) (msg : Msg) (seed : Seed) :
    (calculate H s tl msg seed).1 = s := by
  cases tl <;> unfold calculate cachePath <;> split_ifs <;> rfl

/-- C10: a stop observed at the second load (pow_hash.cpp line 202),
after the counter increment and the equal-seed check but before the
epoch flip, aborts the rotation with the counter increment as the only
state change. -/
theorem C10_late_stop_leaves_only_counter (s : RandomX_Hasher) (seed : Seed)
    (env : SetSeedEnv) (hstop : s.m_stopped = false)
    (hne : s.m_seed s.m_index ≠ seed) (hl : env.lateStop = true) :
    set_seed s seed env = some { s with m_setSeedCounter := s.m_setSeedCounter + 1 } ∧
    ∀ s', set_seed s seed env = some s' →
      s'.m_index = s.m_index ∧ s'.m_seed = s.m_seed ∧ s'.m_cache = s.m_cache ∧
      s'.m_vm = s.m_vm ∧ s'.m_fullVM = s.m_fullVM ∧ s'.m_dataset = s.m_dataset ∧
      s'.m_datasetContent = s.m_datasetContent ∧
      s'.m_setSeedCounter = s.m_setSeedCounter + 1 := by
  have h := set_seed_of_lateStop s seed env hstop hne hl
  refine ⟨h, ?_⟩
  intro s' h'
  rw [h] at h'
  obtain rfl := Option.some.inj h'
  exact ⟨rfl, rfl, rfl, rfl, rfl, rfl, rfl, rfl⟩

/-- Witness for C10 at a concrete state with a concurrent late stop. -/
theorem C10_witness :
    sOne.m_stopped = false ∧ sOne.m_seed sOne.m_index ≠ 2 ∧
    (⟨true, true, true, true, true⟩ : SetSeedEnv).lateStop = true ∧
    set_seed sOne 2 ⟨true, true, true, true, true⟩ =
      some { sOne with m_setSeedCounter := sOne.m_setSeedCounter + 1 } :=
  ⟨by decide, by decide, by decide,
    (C10_late_stop_leaves_only_counter sOne 2 ⟨true, true, true, true, true⟩
      (by decide) (by decide) (by decide)).1⟩

/-- C1: in a seed-consistent hasher state, calculate returns a hash only
when it was computed against the seed the caller supplied, and, while
the hasher is running, it succeeds exactly when a live slot matches: the
full-dataset VM with the current slot seed (behind the obtained
non-blocking dataset lock), the current slot VM with its seed, or the
previous slot VM with its seed, tried in that strict order
(pow_hash.cpp lines 327-370); in every other case it returns failure
without producing a hash. -/
theorem C1_calculate_matches_caller_seed (H : Seed → Msg → HashVal) (s : RandomX_Hasher)
    (tl : Bool) (msg : Msg) (seed : Seed) (hc : SeedConsistent s) :
    (∀ out, (calculate H s tl msg seed).2 = some out → out = H seed msg) ∧
    (s.m_stopped = false →
      (((calculate H s tl msg seed).2).isSome = true ↔
        (tl = true ∧ s.m_fullVM = true ∧ seed = s.m_seed s.m_index) ∨
        (s.m_vm s.m_index = true ∧ seed = s.m_seed s.m_index) ∨
        (s.m_vm (!s.m_index) = true ∧ seed = s.m_seed (!s.m_index)))) := by
  obtain ⟨hcache, hfull⟩ := hc
  obtain ⟨hsound, hexact⟩ := cachePath_spec H s msg seed hcache
  cases tl with
  | false =>
    have hcalc : calculate H s false msg seed = cachePath H s msg seed := by
      simp [calculate]
    rw [hcalc]
    refine ⟨hsound, fun hstop => (hexact hstop).trans ?_⟩
    constructor
    · exact fun h => Or.inr h
    · rintro (⟨hfalse, _⟩ | h | h)
      · exact absurd hfalse (by simp)
      · exact Or.inl h
      · exact Or.inr h
  | true =>
    by_cases hstop : s.m_stopped = true
    · have hcalc : calculate H s true msg seed = (s, none) := by
        simp [calculate, hstop]
      rw [hcalc]
      exact ⟨fun out hout => by simp at hout, fun hstop' => by rw [hstop'] at hstop; simp at hstop⟩
    · have hstop' : s.m_stopped = false := by
        revert hstop; cases s.m_stopped <;> simp
      by_cases hfast : s.m_fullVM = true ∧ seed = s.m_seed s.m_index
      · have hcalc : calculate H s true msg seed =
            (s, some (H (s.m_datasetContent.getD 0) msg)) := by
          unfold calculate
          rw [if_pos rfl, if_neg (by simp [hstop']), if_pos hfast]
        rw [hcalc]
        constructor
        · intro out hout
          simp only [(hfull hfast.1).2, Option.getD_some] at hout
          obtain rfl := Option.some.inj hout
          rw [hfast.2]
        · intro _
          simp only [Option.isSome_some, true_iff]
          exact Or.inl ⟨by simp, hfast⟩
      · have hcalc : calculate H s true msg seed = cachePath H s msg seed := by
          unfold calculate
          rw [if_pos rfl, if_neg (by simp [hstop']), if_neg hfast]
        rw [hcalc]
        refine ⟨hsound, fun hstop'' => (hexact hstop'').trans ?_⟩
        constructor
        · exact fun h => Or.inr h
        · rintro (⟨_, hf⟩ | h | h)
          · exact absurd hf hfast
          · exact Or.inl h
          · exact Or.inr h

/-- Witness for C1 at a concrete consistent state: requesting the live
seed succeeds with the matching hash, and the exactness equivalence is
exercised. -/
theorem C1_witness :
    SeedConsistent sOne ∧
    (∀ out, (calculate hashFn sOne true [7] 1).2 = some out → out = hashFn 1 [7]) ∧
    (sOne.m_stopped = false →
      (((calculate hashFn sOne true [7] 1).2).isSome = true ↔
        (true = true ∧ sOne.m_fullVM = true ∧ 1 = sOne.m_seed sOne.m_index) ∨
        (sOne.m_vm sOne.m_index = true ∧ 1 = sOne.m_seed sOne.m_index) ∨
        (sOne.m_vm (!sOne.m_index) = true ∧ 1 = sOne.m_seed (!sOne.m_index)))) :=
  ⟨by decide,
    (C1_calculate_matches_caller_seed hashFn sOne true [7] 1 (by decide)).1,
    (C1_calculate_matches_caller_seed hashFn sOne true [7] 1 (by decide)).2⟩

/-- C2: after three completed rotations through pairwise-distinct seeds
S1, S2, S3 in a running hasher, S1 has been evicted: calculate fails on
S1 for every message and lock outcome, while S2 (previous slot) and S3
(current slot) both succeed; and each distinct-seed rotation flipped
the epoch index, stored the new seed in the now-current slot and kept
the previously-current seed in the other slot. -/
theorem C2_two_rotations_evict_oldest (s0 s1 s2 s3 : RandomX_Hasher) (S1 S2 S3 : Seed)
    (e1 e2 e3 : SetSeedEnv) (H : Seed → Msg → HashVal) (tl : Bool) (msg : Msg)
    (h12 : S1 ≠ S2) (h13 : S1 ≠ S3) (h23 : S2 ≠ S3)
    (hstop : s0.m_stopped = false)
    (hl1 : e1.lateStop = false) (hl2 : e2.lateStop = false) (hl3 : e3.lateStop = false)
    (h1 : set_seed s0 S1 e1 = some s1)
    (h2 : set_seed s1 S2 e2 = some s2)
    (h3 : set_seed s2 S3 e3 = some s3) :
    (calculate H s3 tl msg S1).2 = none ∧
    ((calculate H s3 tl msg S2).2).isSome = true ∧
    ((calculate H s3 tl msg S3).2).isSome = true ∧
    s2.m_index = !s1.m_index ∧ s2.m_seed s2.m_index = S2 ∧
    s2.m_seed s1.m_index = s1.m_seed s1.m_index ∧
    s3.m_index = !s2.m_index ∧ s3.m_seed s3.m_index = S3 ∧
    s3.m_seed s2.m_index = s2.m_seed s2.m_index := by
  obtain ⟨hcur1, hstop1⟩ := set_seed_current s0 s1 S1 e1 hstop hl1 h1
  have hne2 : s1.m_seed s1.m_index ≠ S2 := by rw [hcur1]; exact h12
  obtain ⟨hi2, hnew2, hold2, hvmn2, hvmo2, hstop2⟩ := set_seed_rotates s1 s2 S2 e2 hstop1 hl2 hne2 h2
  have hcur2 : s2.m_seed s2.m_index = S2 := by rw [hi2]; exact hnew2
  have hne3 : s2.m_seed s2.m_index ≠ S3 := by rw [hcur2]; exact h23
  obtain ⟨hi3, hnew3, hold3, hvmn3, hvmo3, hstop3⟩ := set_seed_rotates s2 s3 S3 e3 hstop2 hl3 hne3 h3
  have hcur3 : s3.m_seed s3.m_index = S3 := by rw [hi3]; exact hnew3
  have hprev3 : s3.m_seed (!s3.m_index) = S2 := by
    rw [hi3, Bool.not_not, hold3, hcur2]
  have hvmcur3 : s3.m_vm s3.m_index = true := by rw [hi3]; exact hvmn3
  have hvmprev3 : s3.m_vm (!s3.m_index) = true := by
    rw [hi3, Bool.not_not, hvmo3, hi2]
    exact hvmn2
  refine ⟨?_, ?_, ?_, hi2, hcur2, hold2, hi3, hcur3, hold3⟩
  · refine calculate_none_of_no_match H s3 tl msg S1 ?_ ?_
    · rw [hcur3]; exact h13
    · rw [hprev3]; exact h12
  · exact calculate_isSome_of_previous H s3 tl msg S2 hstop3 hvmprev3 hprev3.symm
  · exact calculate_isSome_of_current H s3 tl msg S3 hstop3 hvmcur3 hcur3.symm

/-- Witness for C2 on the concrete run sZero, rotate 1, rotate 2,
rotate 3. -/
theorem C2_witness :
    (1 : Seed) ≠ 2 ∧ (1 : Seed) ≠ 3 ∧ (2 : Seed) ≠ 3 ∧
    sZero.m_stopped = false ∧ eOk.lateStop = false ∧
    set_seed sZero 1 eOk = some sOne ∧
    set_seed sOne 2 eOk = some sTwo ∧
    set_seed sTwo 3 eOk = some sThree ∧
    (calculate hashFn sThree true [7] 1).2 = none ∧
    ((calculate hashFn sThree true [7] 2).2).isSome = true ∧
    ((calculate hashFn sThree true [7] 3).2).isSome = true :=
  ⟨by decide, by decide, by decide, by decide, by decide, by decide, by decide, by decide,
    (C2_two_rotations_evict_oldest sZero sOne sTwo sThree 1 2 3 eOk eOk eOk hashFn true [7]
      (by decide) (by decide) (by decide) (by decide) (by decide) (by decide) (by decide)
      (by decide) (by decide) (by decide)).1,
    (C2_two_rotations_evict_oldest sZero sOne sTwo sThree 1 2 3 eOk eOk eOk hashFn true [7]
      (by decide) (by decide) (by decide) (by decide) (by decide) (by decide) (by decide)
      (by decide) (by decide) (by decide)).2.1,
    (C2_two_rotations_evict_oldest sZero sOne sTwo sThree 1 2 3 eOk eOk eOk hashFn true [7]
      (by decide) (by decide) (by decide) (by decide) (by decide) (by decide) (by decide)
      (by decide) (by decide) (by decide)).2.2.1⟩

/-- C6 counterexample: with item count 2 to the 31st and a
hardware-parallelism hint of 4 (so N = 2 sub-ranges), the product
numItems * 2 wraps around uint32 at pow_hash.cpp line 253, and item
3 * 2 ^ 30 - which lies outside the claimed range [0, item_count) - is
nevertheless covered by the second initialization call: the sub-ranges
are not a partition of [0, item_count), refuting the claim for every
item count and hint. -/
theorem C6_counterexample :
    coversCount (initRanges (2 ^ 31) 4) (3 * 2 ^ 30) ≠
      (if 3 * 2 ^ 30 < 2 ^ 31 then 1 else 0) := by decide

/-- C6 (amended): provided the uint32 products do not wrap, that is
item_count * N < 2 to the 32nd where N = max 1 (hw / 2), the dataset
rebuild issues exactly N initialization calls whose sub-range i is
[item_count * i / N, item_count * (i+1) / N), and these sub-ranges are
contiguous, non-overlapping and cover [0, item_count) exactly: every
item below item_count lies in exactly one sub-range and every other
number in none. -/
theorem C6_partition_no_wrap (numItems hw : Nat)
    (hnowrap : numItems * max 1 (hw / 2) < U32) :
    (initRanges numItems hw).length = max 1 (hw / 2) ∧
    (∀ i, i < max 1 (hw / 2) →
      (initRanges numItems hw)[i]? =
        some (numItems * i / max 1 (hw / 2),
          numItems * (i + 1) / max 1 (hw / 2) - numItems * i / max 1 (hw / 2))) ∧
    (∀ j, coversCount (initRanges numItems hw) j = if j < numItems then 1 else 0) := by
  by_cases hbig : 1 < numDatasetThreads hw
  case neg =>
    have hN1 : max 1 (hw / 2) = 1 := by
      unfold numDatasetThreads at hbig
      split_ifs at hbig <;> omega
    have hr : initRanges numItems hw = [(0, numItems)] := by
      unfold initRanges
      rw [if_neg hbig]
    rw [hN1, hr]
    refine ⟨rfl, ?_, ?_⟩
    · intro i hi
      have hi0 : i = 0 := by omega
      subst hi0
      simp
    · intro j
      by_cases hj : j < numItems <;> simp [coversCount, hj]
  case pos =>
    have hNn : max 1 (hw / 2) = numDatasetThreads hw := by
      unfold numDatasetThreads at hbig ⊢
      split_ifs at hbig ⊢ <;> omega
    rw [hNn] at hnowrap ⊢
    have hn0 : 0 < numDatasetThreads hw := by omega
    have hr : initRanges numItems hw =
        (List.range (numDatasetThreads hw)).map fun i =>
          (numItems * i % U32 / numDatasetThreads hw,
            (numItems * (i + 1) % U32 / numDatasetThreads hw + U32
              - numItems * i % U32 / numDatasetThreads hw) % U32) := by
      unfold initRanges
      rw [if_pos hbig]
    have hmul : ∀ i, i ≤ numDatasetThreads hw → numItems * i % U32 = numItems * i :=
      fun i hi => Nat.mod_eq_of_lt (lt_of_le_of_lt (Nat.mul_le_mul_left _ hi) hnowrap)
    have hmono : ∀ i,
        numItems * i / numDatasetThreads hw ≤ numItems * (i + 1) / numDatasetThreads hw :=
      fun i => Nat.div_le_div_right (Nat.mul_le_mul_left _ (Nat.le_succ i))
    have hcount : ∀ i, i < numDatasetThreads hw →
        (numItems * (i + 1) % U32 / numDatasetThreads hw + U32
          - numItems * i % U32 / numDatasetThreads hw) % U32 =
        numItems * (i + 1) / numDatasetThreads hw - numItems * i / numDatasetThreads hw := by
      intro i hi
      rw [hmul i (le_of_lt hi), hmul (i + 1) hi]
      have h1 := hmono i
      have h2 : numItems * (i + 1) / numDatasetThreads hw < U32 :=
        lt_of_le_of_lt (Nat.div_le_self _ _)
          (lt_of_le_of_lt (Nat.mul_le_mul_left _ hi) hnowrap)
      simp only [U32] at h2 ⊢
      generalize hA : numItems * i / numDatasetThreads hw = A at h1 ⊢
      generalize hB : numItems * (i + 1) / numDatasetThreads hw = B at h1 h2 ⊢
      omega
    rw [hr]
    refine ⟨by simp, ?_, ?_⟩
    · intro i hi
      rw [List.getElem?_map, List.getElem?_range hi]
      simp only [Option.map_some']
      rw [hcount i hi, hmul i (le_of_lt hi)]
    · intro j
      rw [coversCount, List.countP_map]
      rw [List.countP_congr (q := fun i => decide (numItems * i / numDatasetThreads hw ≤ j ∧
        j < numItems * (i + 1) / numDatasetThreads hw)) ?_]
      · rw [countP_chain _ j hmono]
        rw [Nat.mul_zero, Nat.zero_div, Nat.mul_div_cancel _ hn0]
        simp [Nat.zero_le]
      · intro x hx
        rw [List.mem_range] at hx
        simp only [Function.comp, decide_eq_true_eq]
        rw [hcount x hx, hmul x (le_of_lt hx), Nat.add_sub_cancel' (hmono x)]

/-- Witness for C6 (amended) on a concrete non-wrapping instance:
8 items, hint 5 (N = 2), item 3 covered once. -/
theorem C6_witness :
    8 * max 1 (5 / 2) < U32 ∧
    (initRanges 8 5).length = max 1 (5 / 2) ∧
    coversCount (initRanges 8 5) 3 = (if 3 < 8 then 1 else 0) :=
  ⟨by decide, (C6_partition_no_wrap 8 5 (by decide)).1,
    (C6_partition_no_wrap 8 5 (by decide)).2.2 3⟩

/-- C7 counterexample: the claim says failure to allocate the
full-dataset VM permanently disables full-dataset mode for the process
lifetime.  In the concrete run below the full-dataset-VM creation fails
under both strategies during the first rotation (m_fullVM stays false),
yet the next rotation re-attempts creation (pow_hash.cpp line 272
guards it only by the VM being null) and succeeds, re-enabling
full-dataset mode. -/
theorem C7_counterexample :
    set_seed sDS 1 eNoFull = some sDS1 ∧ sDS1.m_fullVM = false ∧
    tryAlloc eNoFull.fullVM_lp eNoFull.fullVM_def = false ∧
    set_seed sDS1 2 eRetry = some sDS2 ∧ sDS2.m_fullVM = true := by decide

/-- C7 (amended): every engine allocation tries large pages first and
falls back to the default strategy; the process aborts exactly when a
mandatory structure fails under both strategies - a slot cache at
construction, or a slot VM during a rotation or a previous-seed
recording; failure to allocate the optional dataset is non-fatal and
permanently disables full-dataset mode (the dataset flag stays false
and the full-dataset VM is then never created); failure to create the
full-dataset VM is likewise non-fatal and leaves cache-only hashing
available, but it is re-attempted by the next distinct-seed rotation
rather than being permanent. -/
theorem C7_allocation_fallback (lightMode : Bool) (cenv : AllocEnv)
    (s : RandomX_Hasher) (seed : Seed) (env : SetSeedEnv) (oenv : OldSeedEnv) :
    (construct lightMode cenv = none ↔
      (tryAlloc (cenv.cache_lp false) (cenv.cache_def false) = false ∨
       tryAlloc (cenv.cache_lp true) (cenv.cache_def true) = false)) ∧
    (set_seed s seed env = none ↔
      (s.m_stopped = false ∧ s.m_seed s.m_index ≠ seed ∧ env.lateStop = false ∧
       s.m_vm (!s.m_index) = false ∧ tryAlloc env.slotVM_lp env.slotVM_def = false)) ∧
    (set_old_seed s seed oenv = .aborts ↔
      (s.m_setSeedCounter ≠ 0 ∧ s.m_vm (!s.m_index) = false ∧
       tryAlloc oenv.vm_lp oenv.vm_def = false)) ∧
    (∀ s', tryAlloc cenv.dataset_lp cenv.dataset_def = false →
      construct lightMode cenv = some s' → s'.m_dataset = false) ∧
    (∀ s', s.m_dataset = false → set_seed s seed env = some s' →
      s'.m_dataset = false ∧ s'.m_fullVM = s.m_fullVM ∧
      s'.m_datasetContent = s.m_datasetContent) ∧
    (∀ s', s.m_stopped = false → s.m_seed s.m_index ≠ seed → env.lateStop = false →
      s.m_dataset = true → tryAlloc env.fullVM_lp env.fullVM_def = true →
      set_seed s seed env = some s' → s'.m_fullVM = true) := by
  refine ⟨?_, ?_, ?_, ?_, ?_, ?_⟩
  · unfold construct
    split_ifs with hc0 hc1 <;> simp_all
  · simp only [set_seed]
    split_ifs with h1 h2 h3 h4 <;> simp_all
  · unfold set_old_seed
    split_ifs with h1 h2 <;> simp_all
  · intro s' hd h
    unfold construct at h
    split_ifs at h
    obtain rfl := Option.some.inj h
    simp [hd]
  · intro s' hd h
    simp only [set_seed] at h
    split_ifs at h with h1 h2 h3
    · obtain rfl := Option.some.inj h
      exact ⟨hd, rfl, rfl⟩
    · obtain rfl := Option.some.inj h
      exact ⟨hd, rfl, rfl⟩
    · obtain rfl := Option.some.inj h
      exact ⟨hd, rfl, rfl⟩
    · simp only [Option.some.injEq] at h
      obtain rfl := h
      unfold datasetStep
      rw [if_neg (by simp [hd])]
      exact ⟨hd, rfl, rfl⟩
  · intro s' h1 h2 h3 hd hvm h
    simp only [set_seed] at h
    rw [if_neg (by simp [h1]), if_neg h2, if_neg (by simp [h3])] at h
    split_ifs at h with habort
    simp only [Option.some.injEq] at h
    obtain rfl := h
    unfold datasetStep
    rw [if_pos (by simpa using hd)]
    simp [hvm]

/-- Witness for C7 (amended): a slot-VM allocation failure during a
rotation aborts the process, while a constructed hasher without a
dataset keeps m_dataset false across a rotation. -/
theorem C7_witness :
    sZero.m_stopped = false ∧ sZero.m_seed sZero.m_index ≠ 1 ∧
    sZero.m_dataset = false ∧
    set_seed sZero 1 ⟨false, false, false, true, true⟩ = none ∧
    (sOne.m_dataset = false ∧ sOne.m_fullVM = sZero.m_fullVM ∧
      sOne.m_datasetContent = sZero.m_datasetContent) :=
  ⟨by decide, by decide, by decide,
    (C7_allocation_fallback false ⟨true, true, fun _ => true, fun _ => true⟩ sZero 1
      ⟨false, false, false, true, true⟩ ⟨true, true⟩).2.1.mpr
      ⟨by decide, by decide, by decide, by decide, by decide⟩,
    (C7_allocation_fallback false ⟨true, true, fun _ => true, fun _ => true⟩ sZero 1
      eOk ⟨true, true⟩).2.2.2.2.1 sOne (by decide) (by decide)⟩

end PowHash
